import Mathlib

/-!
Verification of the rebalance decision & execution engine of a
concentrated-liquidity position bot.  The definitions below are a shallow
embedding of the TypeScript sources `src/app/src/services/cetusService.ts`
and `src/app/src/services/botService.ts`: pure functions become Lean
functions over exact arithmetic (JS numbers and bignumber.js values are
modelled as rationals, bigint strings as naturals), stateful methods become
explicit state-passing functions, and the asynchronous Ledger Client calls
are modelled by passing in the result they resolve to.
-/

/-! ## Concentrated-liquidity math (cetusService.ts) -/

/-- Embeds `CetusService.calculateTokenAmounts` (cetusService.ts, lines
348-374).  bignumber.js values are modelled as rationals; `times`, `minus`
are exact in bignumber.js and `div` is modelled as exact rational division
(bignumber.js rounds the quotient to 20 decimal places, which agrees with
the exact value whenever the quotient terminates within 20 decimal
places). -/
def calculateTokenAmounts (liquidity sqrtPriceCurrent sqrtPriceLower sqrtPriceUpper : ℚ) :
    ℚ × ℚ :=
  if sqrtPriceCurrent < sqrtPriceLower then
    (liquidity * (sqrtPriceUpper - sqrtPriceLower) / (sqrtPriceUpper * sqrtPriceLower), 0)
  else if sqrtPriceUpper < sqrtPriceCurrent then
    (0, liquidity * (sqrtPriceUpper - sqrtPriceLower))
  else
    (liquidity * (sqrtPriceUpper - sqrtPriceCurrent) / (sqrtPriceUpper * sqrtPriceCurrent),
     liquidity * (sqrtPriceCurrent - sqrtPriceLower))

/-- Modelled from the spec's words (for comparison with the code):
`reconstructTokenAmounts` with all arithmetic in arbitrary-precision
integers and every division truncating toward zero. -/
def calculateTokenAmountsSpec (liquidity sqrtPriceCurrent sqrtPriceLower sqrtPriceUpper : ℤ) :
    ℤ × ℤ :=
  if sqrtPriceCurrent < sqrtPriceLower then
    (Int.tdiv (liquidity * (sqrtPriceUpper - sqrtPriceLower)) (sqrtPriceUpper * sqrtPriceLower), 0)
  else if sqrtPriceUpper < sqrtPriceCurrent then
    (0, liquidity * (sqrtPriceUpper - sqrtPriceLower))
  else
    (Int.tdiv (liquidity * (sqrtPriceUpper - sqrtPriceCurrent)) (sqrtPriceUpper * sqrtPriceCurrent),
     liquidity * (sqrtPriceCurrent - sqrtPriceLower))

/-- Embeds bignumber.js `toFixed(0)` under the default rounding mode
ROUND_HALF_UP, which rounds to the nearest integer and rounds ties away
from zero. -/
def bnToFixed0 (x : ℚ) : ℤ :=
  if 0 ≤ x then ⌊x + 1 / 2⌋ else -⌊-x + 1 / 2⌋

/-- Embeds the slippage-adjusted minimum amount computed in
`CetusService.buildAddLiquidityTx` (cetusService.ts, lines 308-309):
`new BN(amount).times(1 - slippageTolerance / 100).toFixed(0)`. -/
def minAmountWithSlippage (amount slippageTolerance : ℚ) : ℤ :=
  bnToFixed0 (amount * (1 - slippageTolerance / 100))

/-- C3 (counterexample): the claim asserts that every division in
`calculateTokenAmounts` truncates toward zero so that both returned
amounts are non-negative integers.  At liquidity 1, sqrt prices
current 2, lower 1, upper 4 (in-range case) the code computes
amountA = 1 * (4 - 2) / (4 * 2) = 1/4, a non-integer rational
(denominator 4), whereas truncating integer division as the spec words it
would yield 0. -/
theorem calculateTokenAmounts_not_truncating :
    (calculateTokenAmounts 1 2 1 4).1 = 1 / 4 ∧
    ((calculateTokenAmounts 1 2 1 4).1).den ≠ 1 ∧
    (calculateTokenAmountsSpec 1 2 1 4).1 = 0 ∧
    (((calculateTokenAmountsSpec 1 2 1 4).1 : ℚ)) ≠ (calculateTokenAmounts 1 2 1 4).1 := by
  refine ⟨by norm_num [calculateTokenAmounts], by norm_num [calculateTokenAmounts],
    by decide, ?_⟩
  have h1 : (calculateTokenAmounts 1 2 1 4).1 = 1 / 4 := by norm_num [calculateTokenAmounts]
  have h2 : (calculateTokenAmountsSpec 1 2 1 4).1 = 0 := by decide
  rw [h1, h2]
  norm_num

/-- C3 (amended): for non-negative liquidity and positive sqrt prices with
sqrtPriceLower < sqrtPriceUpper, `calculateTokenAmounts` performs the
spec's three-way case split with the spec's formulas, but with exact
(bignumber.js decimal) division rather than integer truncation; both
returned amounts are non-negative rationals, not necessarily integers. -/
theorem calculateTokenAmounts_cases_nonneg (L c lo up : ℚ)
    (hL : 0 ≤ L) (hlo : 0 < lo) (hlu : lo < up) (hc : 0 < c) :
    0 ≤ (calculateTokenAmounts L c lo up).1 ∧
    0 ≤ (calculateTokenAmounts L c lo up).2 ∧
    (c < lo → calculateTokenAmounts L c lo up = (L * (up - lo) / (up * lo), 0)) ∧
    (up < c → calculateTokenAmounts L c lo up = (0, L * (up - lo))) ∧
    (lo ≤ c → c ≤ up →
      calculateTokenAmounts L c lo up = (L * (up - c) / (up * c), L * (c - lo))) := by
  have hup : 0 < up := lt_trans hlo hlu
  unfold calculateTokenAmounts
  split_ifs with h1 h2
  · refine ⟨?_, le_refl 0, fun _ => rfl,
      fun h => absurd hlu (lt_asymm (lt_trans h h1)), fun h _ => absurd h1 (not_lt.mpr h)⟩
    exact div_nonneg (mul_nonneg hL (by linarith)) (by positivity)
  · refine ⟨le_refl 0, ?_, fun h => absurd h h1, fun _ => rfl,
      fun _ h => absurd h2 (not_lt.mpr h)⟩
    exact mul_nonneg hL (by linarith)
  · push_neg at h1 h2
    refine ⟨?_, ?_, fun h => absurd h (not_lt.mpr h1), fun h => absurd h (not_lt.mpr h2),
      fun _ _ => rfl⟩
    · exact div_nonneg (mul_nonneg hL (by linarith)) (by positivity)
    · exact mul_nonneg hL (by linarith)

/-- Witness for the amended C3 theorem at liquidity 1, current 2, lower 1,
upper 4. -/
theorem calculateTokenAmounts_cases_nonneg_witness :
    0 ≤ (calculateTokenAmounts 1 2 1 4).1 ∧
    0 ≤ (calculateTokenAmounts 1 2 1 4).2 ∧
    ((2 : ℚ) < 1 → calculateTokenAmounts 1 2 1 4 = (1 * (4 - 1) / (4 * 1), 0)) ∧
    ((4 : ℚ) < 2 → calculateTokenAmounts 1 2 1 4 = (0, 1 * (4 - 1))) ∧
    ((1 : ℚ) ≤ 2 → (2 : ℚ) ≤ 4 →
      calculateTokenAmounts 1 2 1 4 = (1 * (4 - 2) / (4 * 2), 1 * (2 - 1))) :=
  calculateTokenAmounts_cases_nonneg 1 2 1 4 (by norm_num) (by norm_num) (by norm_num)
    (by norm_num)

/-- C4 (counterexample): the claim asserts the slippage-adjusted minimum
equals floor(amount * (1 - tolerance/100)) and is never negative, and that
tolerance ≥ 100 floors to zero.  The code uses bignumber.js `toFixed(0)`
(round to nearest, ties away from zero): at amount 1, tolerance 50 it
returns 1 while the floor is 0; and at amount 100, tolerance 200 it
returns -100, a negative value. -/
theorem minAmountWithSlippage_not_floor :
    minAmountWithSlippage 1 50 = 1 ∧
    ⌊(1 : ℚ) * (1 - 50 / 100)⌋ = 0 ∧
    minAmountWithSlippage 100 200 = -100 := by
  refine ⟨by norm_num [minAmountWithSlippage, bnToFixed0], by norm_num, by
    norm_num [minAmountWithSlippage, bnToFixed0]⟩

/-- C4 (amended): the slippage-adjusted minimum amount equals
amount * (1 - tolerance/100) rounded to the nearest integer with ties away
from zero (equivalently floor(x + 1/2) on the non-negative products); it is
non-negative whenever 0 ≤ tolerance ≤ 100, and at tolerance = 100 it is
exactly zero; for tolerance > 100 it is the rounding of a negative product
and can be negative. -/
theorem minAmountWithSlippage_nonneg (amount tol : ℚ)
    (ha : 0 ≤ amount) (ht0 : 0 ≤ tol) (ht1 : tol ≤ 100) :
    0 ≤ minAmountWithSlippage amount tol ∧
    minAmountWithSlippage amount tol = ⌊amount * (1 - tol / 100) + 1 / 2⌋ ∧
    minAmountWithSlippage amount 100 = 0 := by
  have hx : 0 ≤ amount * (1 - tol / 100) := mul_nonneg ha (by linarith)
  refine ⟨?_, ?_, ?_⟩
  · unfold minAmountWithSlippage bnToFixed0
    rw [if_pos hx]
    exact Int.le_floor.mpr (by push_cast; linarith)
  · unfold minAmountWithSlippage bnToFixed0
    rw [if_pos hx]
  · unfold minAmountWithSlippage bnToFixed0
    norm_num

/-- Witness for the amended C4 theorem at amount 7, tolerance 25. -/
theorem minAmountWithSlippage_nonneg_witness :
    0 ≤ minAmountWithSlippage 7 25 ∧
    minAmountWithSlippage 7 25 = ⌊(7 : ℚ) * (1 - 25 / 100) + 1 / 2⌋ ∧
    minAmountWithSlippage 7 100 = 0 :=
  minAmountWithSlippage_nonneg 7 25 (by norm_num) (by norm_num) (by norm_num)

/-- Embeds the tick-span computation of `CetusService.calculateNewTickRange`
(cetusService.ts, lines 175-178):
`Math.round(Math.log(1 + rangeWidthPercent / 100) / Math.log(1.0001))`.
The double-precision `Math.log` is modelled by the exact real logarithm
(the spec's §4.1 prescribes the mathematical log base 1.0001), which forces
this definition and the two below to be noncomputable; `Math.round` and
Mathlib's `round` both send x to the floor of x + 1/2. -/
noncomputable def tickRangeOf (rangeWidthPercent : ℚ) : ℤ :=
  round (Real.log (1 + (rangeWidthPercent : ℝ) / 100) / Real.log 1.0001)

/-- Embeds `const halfRange = Math.round(tickRange / 2)` (cetusService.ts,
line 181). -/
noncomputable def halfRangeOf (rangeWidthPercent : ℚ) : ℤ :=
  round ((tickRangeOf rangeWidthPercent : ℚ) / 2)

/-- Embeds `CetusService.calculateNewTickRange` (cetusService.ts, lines
169-186): snap currentTick - halfRange down and currentTick + halfRange up
to multiples of tickSpacing.  The source contains no widening step after
snapping. -/
noncomputable def calculateNewTickRange (currentTick tickSpacing : ℤ) (rangeWidthPercent : ℚ) :
    ℤ × ℤ :=
  (⌊((currentTick - halfRangeOf rangeWidthPercent : ℤ) : ℚ) / (tickSpacing : ℚ)⌋ * tickSpacing,
   ⌈((currentTick + halfRangeOf rangeWidthPercent : ℤ) : ℚ) / (tickSpacing : ℚ)⌉ * tickSpacing)

/-- C2 (counterexample): the claim asserts tickLower < tickUpper with
symmetric widening whenever snapping would collapse the range.  At
currentTick 60, tickSpacing 60, rangeWidthPercent 0.001 the computed tick
span rounds to 0, so both bounds snap to 60: the code returns the collapsed
pair (60, 60) and performs no widening. -/
theorem calculateNewTickRange_collapses :
    (calculateNewTickRange 60 60 (1 / 1000)).1 = 60 ∧
    (calculateNewTickRange 60 60 (1 / 1000)).2 = 60 ∧
    ¬ (calculateNewTickRange 60 60 (1 / 1000)).1 < (calculateNewTickRange 60 60 (1 / 1000)).2 := by
  have hb : (0 : ℝ) < Real.log 1.0001 := Real.log_pos (by norm_num)
  have ha' : (1 + (((1 : ℚ) / 1000 : ℚ) : ℝ) / 100) = ((100001 / 100000 : ℝ)) := by
    push_cast
    norm_num
  have hx0 : 0 ≤ Real.log (1 + (((1 : ℚ) / 1000 : ℚ) : ℝ) / 100) / Real.log 1.0001 := by
    refine div_nonneg (Real.log_nonneg ?_) hb.le
    rw [ha']
    norm_num
  have hlt : Real.log (((100001 / 100000 : ℝ)) ^ 2) < Real.log 1.0001 := by
    refine Real.log_lt_log (by norm_num) ?_
    norm_num
  have h2 : 2 * Real.log ((100001 / 100000 : ℝ)) < Real.log 1.0001 := by
    rw [Real.log_pow] at hlt
    push_cast at hlt
    linarith
  have hx1 : Real.log (1 + (((1 : ℚ) / 1000 : ℚ) : ℝ) / 100) / Real.log 1.0001 < 1 / 2 := by
    rw [ha', div_lt_iff₀ hb]
    linarith
  have h0 : tickRangeOf (1 / 1000) = 0 := by
    unfold tickRangeOf
    rw [round_eq, Int.floor_eq_zero_iff, Set.mem_Ico]
    exact ⟨by linarith, by linarith⟩
  have hhalf : halfRangeOf (1 / 1000) = 0 := by
    unfold halfRangeOf
    rw [h0]
    norm_num
  refine ⟨?_, ?_, ?_⟩
  · show ⌊((60 - halfRangeOf (1 / 1000) : ℤ) : ℚ) / ((60 : ℤ) : ℚ)⌋ * 60 = 60
    rw [hhalf]
    norm_num
  · show ⌈((60 + halfRangeOf (1 / 1000) : ℤ) : ℚ) / ((60 : ℤ) : ℚ)⌉ * 60 = 60
    rw [hhalf]
    norm_num
  · show ¬ ⌊((60 - halfRangeOf (1 / 1000) : ℤ) : ℚ) / ((60 : ℤ) : ℚ)⌋ * 60 <
        ⌈((60 + halfRangeOf (1 / 1000) : ℤ) : ℚ) / ((60 : ℤ) : ℚ)⌉ * 60
    rw [hhalf]
    norm_num

/-- C2 (amended): for every integer currentTick, positive tickSpacing and
positive rangeWidthPercent, `calculateNewTickRange` returns bounds that are
integer multiples of tickSpacing with tickLower ≤ currentTick ≤ tickUpper
(hence tickLower ≤ tickUpper); the bounds may coincide when the computed
half-span rounds to zero and currentTick is a multiple of tickSpacing — no
widening is performed on collapse. -/
theorem calculateNewTickRange_aligned (t s : ℤ) (p : ℚ) (hs : 0 < s) (hp : 0 < p) :
    s ∣ (calculateNewTickRange t s p).1 ∧ s ∣ (calculateNewTickRange t s p).2 ∧
    (calculateNewTickRange t s p).1 ≤ t ∧ t ≤ (calculateNewTickRange t s p).2 ∧
    (calculateNewTickRange t s p).1 ≤ (calculateNewTickRange t s p).2 := by
  have hb : (0 : ℝ) < Real.log 1.0001 := Real.log_pos (by norm_num)
  have hnum : (0 : ℝ) ≤ Real.log (1 + (p : ℝ) / 100) := by
    refine Real.log_nonneg ?_
    have hp' : (0 : ℝ) < (p : ℝ) := by exact_mod_cast hp
    linarith
  have htr : 0 ≤ tickRangeOf p := by
    unfold tickRangeOf
    rw [round_eq]
    refine Int.le_floor.mpr ?_
    have := div_nonneg hnum hb.le
    push_cast
    linarith
  have hh : 0 ≤ halfRangeOf p := by
    unfold halfRangeOf
    rw [round_eq]
    refine Int.le_floor.mpr ?_
    have : (0 : ℚ) ≤ (tickRangeOf p : ℚ) := by exact_mod_cast htr
    push_cast
    linarith
  have hsq : (0 : ℚ) < (s : ℚ) := by exact_mod_cast hs
  have hh' : (0 : ℚ) ≤ (halfRangeOf p : ℚ) := by exact_mod_cast hh
  have hlow : ⌊((t - halfRangeOf p : ℤ) : ℚ) / (s : ℚ)⌋ * s ≤ t := by
    have hfl := Int.floor_le (((t - halfRangeOf p : ℤ) : ℚ) / (s : ℚ))
    have hmul : (⌊((t - halfRangeOf p : ℤ) : ℚ) / (s : ℚ)⌋ : ℚ) * (s : ℚ) ≤
        ((t - halfRangeOf p : ℤ) : ℚ) := by
      have := mul_le_mul_of_nonneg_right hfl hsq.le
      rwa [div_mul_cancel₀ _ (ne_of_gt hsq)] at this
    have hq : ((⌊((t - halfRangeOf p : ℤ) : ℚ) / (s : ℚ)⌋ * s : ℤ) : ℚ) ≤ (t : ℚ) := by
      push_cast at hmul ⊢
      linarith
    exact_mod_cast hq
  have hup : t ≤ ⌈((t + halfRangeOf p : ℤ) : ℚ) / (s : ℚ)⌉ * s := by
    have hcl := Int.le_ceil (((t + halfRangeOf p : ℤ) : ℚ) / (s : ℚ))
    have hmul : ((t + halfRangeOf p : ℤ) : ℚ) ≤
        (⌈((t + halfRangeOf p : ℤ) : ℚ) / (s : ℚ)⌉ : ℚ) * (s : ℚ) := by
      have := mul_le_mul_of_nonneg_right hcl hsq.le
      rwa [div_mul_cancel₀ _ (ne_of_gt hsq)] at this
    have hq : (t : ℚ) ≤ ((⌈((t + halfRangeOf p : ℤ) : ℚ) / (s : ℚ)⌉ * s : ℤ) : ℚ) := by
      push_cast at hmul ⊢
      linarith
    exact_mod_cast hq
  exact ⟨dvd_mul_left s _, dvd_mul_left s _, hlow, hup, le_trans hlow hup⟩

/-- Witness for the amended C2 theorem at currentTick 1234, tickSpacing 60,
rangeWidthPercent 10 (the spec's §8 scenario). -/
theorem calculateNewTickRange_aligned_witness :
    (0 : ℤ) < 60 ∧ (0 : ℚ) < 10 ∧
    ((60 : ℤ) ∣ (calculateNewTickRange 1234 60 10).1 ∧
     (60 : ℤ) ∣ (calculateNewTickRange 1234 60 10).2 ∧
     (calculateNewTickRange 1234 60 10).1 ≤ 1234 ∧
     (1234 : ℤ) ≤ (calculateNewTickRange 1234 60 10).2 ∧
     (calculateNewTickRange 1234 60 10).1 ≤ (calculateNewTickRange 1234 60 10).2) :=
  ⟨by norm_num, by norm_num,
    calculateNewTickRange_aligned 1234 60 10 (by norm_num) (by norm_num)⟩

/-! ## Bot data model and state machine (botService.ts, types/index.ts) -/

/-- Embeds the tick fields of `LiquidityPosition` (types/index.ts) used by
the range-membership check; the remaining fields of the source interface
(identities, amounts, prices, decimals, symbols) are not read by the
functions verified here. -/
structure LiquidityPosition where
  tickLower : ℤ
  tickUpper : ℤ
  currentTick : ℤ
deriving DecidableEq

/-- Embeds `RebalanceConfig` (types/index.ts).  JS numbers are modelled as
rationals for the percent fields and integers for the interval and gas
budget. -/
structure RebalanceConfig where
  slippageTolerance : ℚ
  rangeWidthPercent : ℚ
  minRebalanceInterval : ℤ
  gasBudget : ℤ
  autoRebalance : Bool
deriving DecidableEq

/-- Embeds `BotState` (types/index.ts).  `lastRebalanceTime` is the
millisecond timestamp or `none` for the source's `null`; `totalGasSpent`
is the bigint held in the source's decimal string. -/
structure BotState where
  isRunning : Bool
  lastRebalanceTime : Option ℤ
  rebalanceCount : ℕ
  totalGasSpent : ℕ
  errors : List String
deriving DecidableEq

/-- Embeds `RebalanceResult` (types/index.ts); optional fields become
`Option`, the `gasCost` bigint string becomes `Option ℕ` (`none` for
`undefined`). -/
structure RebalanceResult where
  success : Bool
  txHash : Option String := none
  gasCost : Option ℕ := none
  newPositionId : Option String := none
  newTickLower : Option ℤ := none
  newTickUpper : Option ℤ := none
  error : Option String := none
deriving DecidableEq

/-- Embeds the mutable fields of the `BotService` class (botService.ts,
lines 4-11): the live config, the bot state, whether a monitoring interval
handle is set, and the monitored position id. -/
structure BotService where
  config : RebalanceConfig
  state : BotState
  monitoringInterval : Bool
  positionId : Option String
deriving DecidableEq

/-- Embeds `CetusService.isPriceOutOfRange` (cetusService.ts, lines
163-166). -/
def isPriceOutOfRange (position : LiquidityPosition) : Bool :=
  position.currentTick < position.tickLower || position.currentTick > position.tickUpper

/-- Embeds `BotService.canRebalance` (botService.ts, lines 104-109).  The
source guard `if (!this.state.lastRebalanceTime) return true` is true for
the JS-falsy values `null` and `0`, so a zero timestamp is treated like an
unset one; otherwise it compares elapsed milliseconds against
`minRebalanceInterval * 1000`. -/
def canRebalance (state : BotState) (config : RebalanceConfig) (now : ℤ) : Bool :=
  match state.lastRebalanceTime with
  | none => true
  | some t => if t = 0 then true else decide (now - t ≥ config.minRebalanceInterval * 1000)

/-- Embeds the wait-time computation of `BotService.checkRebalanceNeeded`
(botService.ts, lines 216-218): `Math.ceil((minRebalanceInterval * 1000 -
(Date.now() - (lastRebalanceTime || 0))) / 1000)`. -/
def rebalanceWaitTime (state : BotState) (config : RebalanceConfig) (now : ℤ) : ℤ :=
  ⌈((config.minRebalanceInterval * 1000 - (now - state.lastRebalanceTime.getD 0) : ℤ) : ℚ)
      / 1000⌉

/-- Embeds the pure core of `BotService.checkRebalanceNeeded`
(botService.ts, lines 196-226) given the fetched position: the two guard
branches for a missing position id or an unfetchable position are the
source's early returns before this core runs.  The function is pure: it
reads `Date.now()` (modelled by the `now` parameter) and mutates
nothing. -/
def checkRebalanceNeeded (position : LiquidityPosition) (state : BotState)
    (config : RebalanceConfig) (now : ℤ) : Bool × String :=
  if !isPriceOutOfRange position then
    (false, "Price in range. Current: " ++ toString position.currentTick ++ ", Range: ["
      ++ toString position.tickLower ++ ", " ++ toString position.tickUpper ++ "]")
  else if !canRebalance state config now then
    (false, "Waiting " ++ toString (rebalanceWaitTime state config now)
      ++ "s for min rebalance interval")
  else
    (true, "Price out of range! Current: " ++ toString position.currentTick ++ ", Range: ["
      ++ toString position.tickLower ++ ", " ++ toString position.tickUpper ++ "]")

/-- Embeds the error-log append of `BotService.logError` (botService.ts,
lines 239-253): push the message, then drop the oldest entry when the
length exceeds 100.  The source prefixes an ISO timestamp and the marker
ERROR to the message before pushing; the entry is modelled as the already
formatted string. -/
def logErrorEntry (errors : List String) (message : String) : List String :=
  let pushed := errors ++ [message]
  if pushed.length > 100 then pushed.tail else pushed

/-- Embeds `BotService.executeRebalance` (botService.ts, lines 112-142).
The awaited `cetusService.rebalancePosition` call is modelled by the
`result` it resolves to and `Date.now()` by `now`.  Returns the updated
service together with the result passed to the `onRebalance` callback
(`none` when the early `positionId` guard returns first). -/
def executeRebalance (b : BotService) (result : RebalanceResult) (now : ℤ) :
    BotService × Option RebalanceResult :=
  match b.positionId with
  | none => (b, none)
  | some _ =>
    if result.success then
      ({ b with
          state := { b.state with
            lastRebalanceTime := some now,
            rebalanceCount := b.state.rebalanceCount + 1,
            totalGasSpent := b.state.totalGasSpent + (match result.gasCost with
              | some g => g
              | none => 0) },
          positionId := match result.newPositionId with
            | some nid => if nid = "" then b.positionId else some nid
            | none => b.positionId },
        some result)
    else
      ({ b with
          state := { b.state with
            errors := logErrorEntry b.state.errors
              ("Rebalance failed: " ++ result.error.getD "undefined") } },
        some result)

/-- Embeds `BotService.triggerRebalance` (botService.ts, lines 166-187).
On success it advances `lastRebalanceTime`, increments `rebalanceCount`
and adds the gas cost, but — unlike `executeRebalance` — it never touches
`positionId`; on failure it records nothing.  The returned result is both
handed to `onRebalance` and returned to the caller. -/
def triggerRebalance (b : BotService) (result : RebalanceResult) (now : ℤ) :
    BotService × RebalanceResult :=
  match b.positionId with
  | none => (b, { success := false, error := some "No position being monitored" })
  | some _ =>
    if result.success then
      ({ b with
          state := { b.state with
            lastRebalanceTime := some now,
            rebalanceCount := b.state.rebalanceCount + 1,
            totalGasSpent := b.state.totalGasSpent + (match result.gasCost with
              | some g => g
              | none => 0) } },
        result)
    else
      (b, result)

/-- Embeds `BotService.stopMonitoring` (botService.ts, lines 59-66):
clear the interval handle and set `isRunning := false`; `logStatus` writes
no state. -/
def stopMonitoring (b : BotService) : BotService :=
  { b with monitoringInterval := false, state := { b.state with isRunning := false } }

/-- Embeds `BotService.getPositionId` (botService.ts, lines 161-163). -/
def getPositionId (b : BotService) : Option String :=
  b.positionId

/-- Embeds the argument of `BotService.updateConfig`: a
`Partial<RebalanceConfig>` with every field optional. -/
structure PartialRebalanceConfig where
  slippageTolerance : Option ℚ := none
  rangeWidthPercent : Option ℚ := none
  minRebalanceInterval : Option ℤ := none
  gasBudget : Option ℤ := none
  autoRebalance : Option Bool := none
deriving DecidableEq

/-- Embeds `BotService.updateConfig` (botService.ts, lines 150-153):
`this.config = { ...this.config, ...newConfig }` — a field-by-field merge
with no validation of any kind. -/
def updateConfig (b : BotService) (newConfig : PartialRebalanceConfig) : BotService :=
  { b with config :=
      { slippageTolerance := newConfig.slippageTolerance.getD b.config.slippageTolerance,
        rangeWidthPercent := newConfig.rangeWidthPercent.getD b.config.rangeWidthPercent,
        minRebalanceInterval := newConfig.minRebalanceInterval.getD b.config.minRebalanceInterval,
        gasBudget := newConfig.gasBudget.getD b.config.gasBudget,
        autoRebalance := newConfig.autoRebalance.getD b.config.autoRebalance } }

/-- A concrete configuration used by the concrete evaluations below. -/
def cfg0 : RebalanceConfig :=
  { slippageTolerance := 5, rangeWidthPercent := 10, minRebalanceInterval := 300,
    gasBudget := 50000000, autoRebalance := true }

/-- A concrete bot state with no prior rebalance. -/
def st0 : BotState :=
  { isRunning := true, lastRebalanceTime := none, rebalanceCount := 0,
    totalGasSpent := 0, errors := [] }

/-- A concrete running bot monitoring position p. -/
def bot0 : BotService :=
  { config := cfg0, state := st0, monitoringInterval := true, positionId := some "p" }

/-- A concrete successful rebalance result carrying a new position id q. -/
def res0 : RebalanceResult :=
  { success := true, txHash := some "0xabc", gasCost := some 100,
    newPositionId := some "q", newTickLower := some 0, newTickUpper := some 60 }

/-- C1: for a successful result carrying new position id q, the scheduled
executor path updates the monitored id to q, but the manual
`triggerRebalance` path leaves the monitored id at p even though it applies
the same counter updates — contradicting the spec's requirement that every
execution path adopt the returned new id. -/
theorem triggerRebalance_drops_new_position_id :
    res0.success = true ∧ res0.newPositionId = some "q" ∧
    (executeRebalance bot0 res0 5).1.positionId = some "q" ∧
    (triggerRebalance bot0 res0 5).1.positionId = some "p" ∧
    (triggerRebalance bot0 res0 5).1.state.rebalanceCount =
      (executeRebalance bot0 res0 5).1.state.rebalanceCount := by
  refine ⟨rfl, rfl, rfl, rfl, rfl⟩

/-- Helper: the gate `canRebalance` returns true exactly when the last
rebalance time is `null`, zero (both JS-falsy), or at least
`minRebalanceInterval` seconds (in milliseconds) in the past. -/
theorem canRebalance_iff (st : BotState) (cfg : RebalanceConfig) (now : ℤ) :
    canRebalance st cfg now = true ↔
      (st.lastRebalanceTime = none ∨ st.lastRebalanceTime = some 0 ∨
        ∃ t, st.lastRebalanceTime = some t ∧ cfg.minRebalanceInterval * 1000 ≤ now - t) := by
  unfold canRebalance
  cases h : st.lastRebalanceTime with
  | none => simp [h]
  | some t =>
    by_cases ht : t = 0
    · simp [h, ht]
    · simp only [h, if_neg ht, decide_eq_true_eq, ge_iff_le, Option.some.injEq]
      constructor
      · intro hle
        exact Or.inr (Or.inr ⟨t, rfl, hle⟩)
      · rintro (hc | hc | ⟨u, hu, hle⟩)
        · exact absurd hc (by simp)
        · exact absurd hc (by simpa using ht)
        · cases hu
          exact hle

/-- C5 (counterexample): the claim reads needed = true exactly when
out-of-range and (lastRebalanceTime unset or now - last ≥ interval).  With
lastRebalanceTime set to the timestamp 0, now = 1 ms and a 300 s interval,
only 1 ms has elapsed, so the claim demands needed = false; the source's
JS-falsy guard `!this.state.lastRebalanceTime` treats the zero timestamp as
unset and returns needed = true. -/
theorem checkRebalanceNeeded_zero_timestamp :
    (checkRebalanceNeeded { tickLower := 0, tickUpper := 10, currentTick := 20 }
      { st0 with lastRebalanceTime := some 0 } cfg0 1).1 = true ∧
    ({ st0 with lastRebalanceTime := some 0 } : BotState).lastRebalanceTime ≠ none ∧
    (1 : ℤ) - 0 < cfg0.minRebalanceInterval * 1000 := by
  refine ⟨rfl, by simp [st0], by decide⟩

/-- C5 (amended): `checkRebalanceNeeded` returns needed = true exactly when
the current tick is strictly outside the position range and the last
rebalance time is unset, zero (which the source's JS-falsy guard treats
like unset), or at least minRebalanceInterval seconds old; when out of
range but gated it returns needed = false with the reason naming the
remaining wait, in whole seconds rounded up.  Being a pure function of its
arguments, repeated calls on the same inputs return the same value. -/
theorem checkRebalanceNeeded_spec (pos : LiquidityPosition) (st : BotState)
    (cfg : RebalanceConfig) (now : ℤ) :
    ((checkRebalanceNeeded pos st cfg now).1 = true ↔
      (isPriceOutOfRange pos = true ∧
        (st.lastRebalanceTime = none ∨ st.lastRebalanceTime = some 0 ∨
          ∃ t, st.lastRebalanceTime = some t ∧ cfg.minRebalanceInterval * 1000 ≤ now - t))) ∧
    (isPriceOutOfRange pos = true → canRebalance st cfg now = false →
      checkRebalanceNeeded pos st cfg now =
        (false, "Waiting " ++ toString (rebalanceWaitTime st cfg now)
          ++ "s for min rebalance interval")) := by
  constructor
  · rw [← canRebalance_iff st cfg now]
    unfold checkRebalanceNeeded
    cases hout : isPriceOutOfRange pos <;> cases hcan : canRebalance st cfg now <;>
      simp [hout, hcan]
  · intro hout hcan
    unfold checkRebalanceNeeded
    rw [hout, hcan]
    simp

/-- Witness for the amended C5 theorem: the spec's §8 scenario with range
1000-2000, current tick 2500, a rebalance 10 s ago and a 300 s interval. -/
theorem checkRebalanceNeeded_spec_witness :
    ((checkRebalanceNeeded { tickLower := 1000, tickUpper := 2000, currentTick := 2500 }
        { st0 with lastRebalanceTime := some 100000 } cfg0 110000).1 = true ↔
      (isPriceOutOfRange { tickLower := 1000, tickUpper := 2000, currentTick := 2500 } = true ∧
        (({ st0 with lastRebalanceTime := some 100000 } : BotState).lastRebalanceTime = none ∨
          ({ st0 with lastRebalanceTime := some 100000 } : BotState).lastRebalanceTime = some 0 ∨
          ∃ t, ({ st0 with lastRebalanceTime := some 100000 } : BotState).lastRebalanceTime
              = some t ∧ cfg0.minRebalanceInterval * 1000 ≤ 110000 - t))) ∧
    (isPriceOutOfRange { tickLower := 1000, tickUpper := 2000, currentTick := 2500 } = true →
      canRebalance { st0 with lastRebalanceTime := some 100000 } cfg0 110000 = false →
      checkRebalanceNeeded { tickLower := 1000, tickUpper := 2000, currentTick := 2500 }
          { st0 with lastRebalanceTime := some 100000 } cfg0 110000 =
        (false, "Waiting " ++ toString (rebalanceWaitTime
            { st0 with lastRebalanceTime := some 100000 } cfg0 110000)
          ++ "s for min rebalance interval")) :=
  checkRebalanceNeeded_spec { tickLower := 1000, tickUpper := 2000, currentTick := 2500 }
    { st0 with lastRebalanceTime := some 100000 } cfg0 110000

/-- C7: when a rebalance execution resolves to a failed result, the
executor leaves rebalanceCount, totalGasSpent, lastRebalanceTime and the
monitored position id unchanged, appends the failure to the error log, and
still reports the failed result through the onRebalance callback. -/
theorem executeRebalance_failure_frame (b : BotService) (r : RebalanceResult) (now : ℤ)
    (hpos : b.positionId ≠ none) (hfail : r.success = false) :
    ((executeRebalance b r now).1).state.rebalanceCount = b.state.rebalanceCount ∧
    ((executeRebalance b r now).1).state.totalGasSpent = b.state.totalGasSpent ∧
    ((executeRebalance b r now).1).state.lastRebalanceTime = b.state.lastRebalanceTime ∧
    ((executeRebalance b r now).1).state.errors =
      logErrorEntry b.state.errors ("Rebalance failed: " ++ r.error.getD "undefined") ∧
    (executeRebalance b r now).2 = some r ∧
    ((executeRebalance b r now).1).positionId = b.positionId := by
  cases hb : b.positionId with
  | none => exact absurd hb hpos
  | some p => simp [executeRebalance, hb, hfail]

/-- Witness for the C7 theorem: a failed result with reason slippage on the
concrete running bot. -/
theorem executeRebalance_failure_frame_witness :
    ((executeRebalance bot0 { success := false, error := some "slippage" }
        7).1).state.rebalanceCount
        = bot0.state.rebalanceCount ∧
    ((executeRebalance bot0 { success := false, error := some "slippage" } 7).1).state.totalGasSpent
        = bot0.state.totalGasSpent ∧
    ((executeRebalance bot0 { success := false, error := some "slippage" }
        7).1).state.lastRebalanceTime = bot0.state.lastRebalanceTime ∧
    ((executeRebalance bot0 { success := false, error := some "slippage" } 7).1).state.errors =
      logErrorEntry bot0.state.errors
        ("Rebalance failed: " ++ (some "slippage" : Option String).getD "undefined") ∧
    (executeRebalance bot0 { success := false, error := some "slippage" } 7).2 =
      some { success := false, error := some "slippage" } ∧
    ((executeRebalance bot0 { success := false, error := some "slippage" } 7).1).positionId =
      bot0.positionId :=
  executeRebalance_failure_frame bot0 { success := false, error := some "slippage" } 7
    (by simp [bot0]) rfl

/-- C8 (counterexample): the claim asserts updateConfig re-validates
numeric fields and rejects out-of-range updates leaving the live config
unchanged.  Updating with slippageTolerance = -5 is accepted verbatim: the
live config now carries the negative tolerance and differs from the
previous config. -/
theorem updateConfig_accepts_invalid :
    (updateConfig bot0 { slippageTolerance := some (-5) }).config.slippageTolerance = -5 ∧
    (updateConfig bot0 { slippageTolerance := some (-5) }).config ≠ bot0.config := by
  constructor
  · rfl
  · intro h
    have h5 := congrArg RebalanceConfig.slippageTolerance h
    norm_num [updateConfig, bot0, cfg0] at h5

/-- C8 (amended): `updateConfig` merges the provided fields over the live
config field by field with no validation: each provided value, in range or
not, replaces the old one verbatim, absent fields keep their old values,
and nothing else in the service changes. -/
theorem updateConfig_merges (b : BotService) (u : PartialRebalanceConfig) :
    (updateConfig b u).config.slippageTolerance
        = u.slippageTolerance.getD b.config.slippageTolerance ∧
    (updateConfig b u).config.rangeWidthPercent
        = u.rangeWidthPercent.getD b.config.rangeWidthPercent ∧
    (updateConfig b u).config.minRebalanceInterval
        = u.minRebalanceInterval.getD b.config.minRebalanceInterval ∧
    (updateConfig b u).config.gasBudget = u.gasBudget.getD b.config.gasBudget ∧
    (updateConfig b u).config.autoRebalance = u.autoRebalance.getD b.config.autoRebalance ∧
    (updateConfig b u).state = b.state ∧
    (updateConfig b u).positionId = b.positionId ∧
    (updateConfig b u).monitoringInterval = b.monitoringInterval :=
  ⟨rfl, rfl, rfl, rfl, rfl, rfl, rfl, rfl⟩

/-- Helper: one logError append keeps the error log within 100 entries. -/
theorem logErrorEntry_length_le (es : List String) (m : String) (h : es.length ≤ 100) :
    (logErrorEntry es m).length ≤ 100 := by
  unfold logErrorEntry
  by_cases hlen : (es ++ [m]).length > 100
  · rw [if_pos hlen]
    rw [List.length_tail, List.length_append]
    simp
    omega
  · rw [if_neg hlen]
    simp only [List.length_append, List.length_singleton] at hlen ⊢
    omega

/-- C9: starting from the empty log, any sequence of recorded errors leaves
at most 100 entries; each recorded error is appended at the end, and when
the log already holds 100 entries exactly the oldest entry is evicted. -/
theorem errors_capacity_bounded :
    (∀ msgs : List String, (msgs.foldl logErrorEntry []).length ≤ 100) ∧
    (∀ (es : List String) (m : String), es.length ≤ 100 →
      (logErrorEntry es m).length ≤ 100 ∧
      (es.length < 100 → logErrorEntry es m = es ++ [m]) ∧
      (es.length = 100 → logErrorEntry es m = es.tail ++ [m])) := by
  constructor
  · have general : ∀ (msgs : List String) (es : List String), es.length ≤ 100 →
        (msgs.foldl logErrorEntry es).length ≤ 100 := by
      intro msgs
      induction msgs with
      | nil => intro es h; simpa using h
      | cons m ms ih =>
        intro es h
        simpa using ih (logErrorEntry es m) (logErrorEntry_length_le es m h)
    exact fun msgs => general msgs [] (by simp)
  · intro es m h
    refine ⟨logErrorEntry_length_le es m h, ?_, ?_⟩
    · intro hlt
      unfold logErrorEntry
      rw [if_neg (by simp only [List.length_append, List.length_singleton]; omega)]
    · intro heq
      unfold logErrorEntry
      rw [if_pos (by simp only [List.length_append, List.length_singleton]; omega)]
      cases es with
      | nil => simp at heq
      | cons a as => simp

/-- Witness for the C9 theorem: two messages folded from the empty log, and
one append to a one-entry log. -/
theorem errors_capacity_bounded_witness :
    ((["a", "b"] : List String).foldl logErrorEntry []).length ≤ 100 ∧
    ((logErrorEntry ["x"] "y").length ≤ 100 ∧
      ((["x"] : List String).length < 100 → logErrorEntry ["x"] "y" = ["x"] ++ ["y"]) ∧
      ((["x"] : List String).length = 100 →
        logErrorEntry ["x"] "y" = (["x"] : List String).tail ++ ["y"])) :=
  ⟨errors_capacity_bounded.1 ["a", "b"],
    errors_capacity_bounded.2 ["x"] "y" (by simp)⟩

/-- C10: stopMonitoring changes only the running flag and the interval
handle — the monitored position id, both counters, the last rebalance
time, the error log and the config are untouched; getPositionId still
returns the previously monitored id, and a manual triggerRebalance on the
stopped bot returns the same result and applies the same counter update as
on the running bot. -/
theorem stopMonitoring_frame (b : BotService) (r : RebalanceResult) (now : ℤ) :
    (stopMonitoring b).positionId = b.positionId ∧
    (stopMonitoring b).config = b.config ∧
    (stopMonitoring b).state.rebalanceCount = b.state.rebalanceCount ∧
    (stopMonitoring b).state.totalGasSpent = b.state.totalGasSpent ∧
    (stopMonitoring b).state.lastRebalanceTime = b.state.lastRebalanceTime ∧
    (stopMonitoring b).state.errors = b.state.errors ∧
    (stopMonitoring b).state.isRunning = false ∧
    (stopMonitoring b).monitoringInterval = false ∧
    getPositionId (stopMonitoring b) = getPositionId b ∧
    (triggerRebalance (stopMonitoring b) r now).2 = (triggerRebalance b r now).2 ∧
    ((triggerRebalance (stopMonitoring b) r now).1).state.rebalanceCount =
      ((triggerRebalance b r now).1).state.rebalanceCount := by
  refine ⟨rfl, rfl, rfl, rfl, rfl, rfl, rfl, rfl, rfl, ?_, ?_⟩ <;>
    cases hb : b.positionId <;>
      simp [triggerRebalance, stopMonitoring, hb] <;>
        cases hr : r.success <;> simp [hr]

/-! ## Monitoring-loop cycle interleaving (botService.ts, lines 40-56)

`startMonitoring` registers `setInterval(async () => { await
this.checkAndRebalance(); }, checkIntervalMs)`.  The callback performs no
in-flight check of any kind (the class holds no such flag), so a timer
tick always starts a new cycle; a cycle suspends at its awaited Ledger
Client calls (`getPosition`, then possibly `rebalancePosition`, whose
transaction carries the `remove_liquidity` call).  The model below tracks
each started cycle through these suspension points: `fetching` while
`getPosition` is awaited, `executing` while `rebalancePosition` is
awaited, `done` when the cycle finished (including the in-range or gated
outcomes, folded into `fetchResolved` with `needsRebalance = false`). -/

/-- Phase of one monitoring cycle between its await points. -/
inductive CyclePhase where
  | fetching
  | executing
  | done
deriving DecidableEq

/-- Events of the event loop: a timer tick firing, a cycle's position
fetch resolving (with the gate's decision), or a cycle's rebalance
submission resolving. -/
inductive LoopEvent where
  | tick
  | fetchResolved (i : ℕ) (needsRebalance : Bool)
  | execResolved (i : ℕ)
deriving DecidableEq

/-- Advance cycle i past its resolved position fetch. -/
def resolveFetch : List CyclePhase → ℕ → Bool → List CyclePhase
  | [], _, _ => []
  | c :: cs, 0, b =>
    (if c = CyclePhase.fetching then (if b then CyclePhase.executing else CyclePhase.done)
     else c) :: cs
  | c :: cs, i + 1, b => c :: resolveFetch cs i b

/-- Advance cycle i past its resolved rebalance submission. -/
def resolveExec : List CyclePhase → ℕ → List CyclePhase
  | [], _ => []
  | c :: cs, 0 => (if c = CyclePhase.executing then CyclePhase.done else c) :: cs
  | c :: cs, i + 1 => c :: resolveExec cs i

/-- One event-loop step.  A tick unconditionally appends a fresh cycle:
the source's interval callback invokes checkAndRebalance with no reentrancy
guard. -/
def stepLoop (cycles : List CyclePhase) : LoopEvent → List CyclePhase
  | LoopEvent.tick => cycles ++ [CyclePhase.fetching]
  | LoopEvent.fetchResolved i b => resolveFetch cycles i b
  | LoopEvent.execResolved i => resolveExec cycles i

/-- The cycles after a sequence of events, starting with none in flight. -/
def runLoop (events : List LoopEvent) : List CyclePhase :=
  events.foldl stepLoop []

/-- Number of cycles started but not yet finished. -/
def inFlightCycles : List CyclePhase → ℕ
  | [] => 0
  | c :: cs => (if c = CyclePhase.done then 0 else 1) + inFlightCycles cs

/-- Number of cycles whose rebalance submission — carrying the
`remove_liquidity` call for the monitored position — is awaited. -/
def removeLiquidityInFlight : List CyclePhase → ℕ
  | [] => 0
  | c :: cs => (if c = CyclePhase.executing then 1 else 0) + removeLiquidityInFlight cs

/-- Timing discipline under which the schedule is benign: every tick fires
only when no cycle is in flight. -/
def ticksSerialized : List CyclePhase → List LoopEvent → Bool
  | _, [] => true
  | cs, LoopEvent.tick :: rest =>
    (inFlightCycles cs == 0) && ticksSerialized (cs ++ [CyclePhase.fetching]) rest
  | cs, LoopEvent.fetchResolved i b :: rest => ticksSerialized (resolveFetch cs i b) rest
  | cs, LoopEvent.execResolved i :: rest => ticksSerialized (resolveExec cs i) rest

/-- C6 (counterexample): the claim asserts a tick firing while a previous
cycle's Ledger Client call is unresolved never starts a concurrent cycle.
In the trace tick, fetch-resolves-needing-rebalance, tick, the second tick
fires while cycle 0 awaits its rebalance submission and a second cycle
starts: two cycles are in flight, and after the second cycle's fetch also
resolves out-of-range, two rebalance submissions — two removeLiquidity
calls for the same position — are awaited concurrently. -/
theorem overlapping_cycles_reachable :
    inFlightCycles (runLoop
      [LoopEvent.tick, LoopEvent.fetchResolved 0 true, LoopEvent.tick]) = 2 ∧
    removeLiquidityInFlight (runLoop
      [LoopEvent.tick, LoopEvent.fetchResolved 0 true, LoopEvent.tick,
        LoopEvent.fetchResolved 1 true]) = 2 := by
  decide

/-- Helper: concatenation splits the in-flight count. -/
theorem inFlightCycles_append (cs ds : List CyclePhase) :
    inFlightCycles (cs ++ ds) = inFlightCycles cs + inFlightCycles ds := by
  induction cs with
  | nil => simp [inFlightCycles]
  | cons c cs ih => simp [inFlightCycles, ih]; omega

/-- Helper: resolving a fetch never increases the in-flight count. -/
theorem resolveFetch_inFlight_le (cs : List CyclePhase) (i : ℕ) (b : Bool) :
    inFlightCycles (resolveFetch cs i b) ≤ inFlightCycles cs := by
  induction cs generalizing i with
  | nil => simp [resolveFetch]
  | cons c cs ih =>
    cases i with
    | zero =>
      simp only [resolveFetch, inFlightCycles]
      split_ifs <;> simp_all
    | succ j =>
      simp only [resolveFetch, inFlightCycles]
      have := ih j
      omega

/-- Helper: resolving an execution never increases the in-flight count. -/
theorem resolveExec_inFlight_le (cs : List CyclePhase) (i : ℕ) :
    inFlightCycles (resolveExec cs i) ≤ inFlightCycles cs := by
  induction cs generalizing i with
  | nil => simp [resolveExec]
  | cons c cs ih =>
    cases i with
    | zero =>
      simp only [resolveExec, inFlightCycles]
      split_ifs <;> simp_all
    | succ j =>
      simp only [resolveExec, inFlightCycles]
      have := ih j
      omega

/-- Helper: awaited rebalance submissions are in-flight cycles. -/
theorem removeLiquidity_le_inFlight (cs : List CyclePhase) :
    removeLiquidityInFlight cs ≤ inFlightCycles cs := by
  induction cs with
  | nil => simp [removeLiquidityInFlight, inFlightCycles]
  | cons c cs ih =>
    simp only [removeLiquidityInFlight, inFlightCycles]
    split_ifs with h1 h2
    · simp [h1] at h2
    · omega
    · omega
    · omega

/-- Helper: under serialized timing the in-flight count stays at most 1. -/
theorem ticksSerialized_inFlight_le (events : List LoopEvent) :
    ∀ cs : List CyclePhase, inFlightCycles cs ≤ 1 → ticksSerialized cs events = true →
      inFlightCycles (events.foldl stepLoop cs) ≤ 1 := by
  induction events with
  | nil =>
    intro cs h _
    simpa using h
  | cons e rest ih =>
    intro cs h hser
    cases e with
    | tick =>
      simp only [ticksSerialized, Bool.and_eq_true, beq_iff_eq] at hser
      refine ih (cs ++ [CyclePhase.fetching]) ?_ hser.2
      rw [inFlightCycles_append]
      simp [inFlightCycles, hser.1]
    | fetchResolved i b =>
      simp only [ticksSerialized] at hser
      exact ih _ (le_trans (resolveFetch_inFlight_le cs i b) h) hser
    | execResolved i =>
      simp only [ticksSerialized] at hser
      exact ih _ (le_trans (resolveExec_inFlight_le cs i) h) hser

/-- C6 (amended): the interval callback starts a cycle on every tick with
no reentrancy guard, so cycle serialization is a property of timing, not
enforced by the code: in every schedule in which each tick fires only
when no cycle is in flight, at most one cycle — and hence at most one
removeLiquidity submission — is in flight at any time; a tick firing
during an unresolved cycle starts a second concurrent one. -/
theorem loop_cycles_serialized (events : List LoopEvent)
    (hser : ticksSerialized [] events = true) :
    inFlightCycles (runLoop events) ≤ 1 ∧
    removeLiquidityInFlight (runLoop events) ≤ 1 := by
  have h := ticksSerialized_inFlight_le events [] (by simp [inFlightCycles]) hser
  exact ⟨h, le_trans (removeLiquidity_le_inFlight _) h⟩

/-- Witness for the amended C6 theorem: a serialized schedule of two ticks
whose cycles complete before the next tick fires. -/
theorem loop_cycles_serialized_witness :
    inFlightCycles (runLoop
      [LoopEvent.tick, LoopEvent.fetchResolved 0 false, LoopEvent.tick,
        LoopEvent.fetchResolved 1 true, LoopEvent.execResolved 1]) ≤ 1 ∧
    removeLiquidityInFlight (runLoop
      [LoopEvent.tick, LoopEvent.fetchResolved 0 false, LoopEvent.tick,
        LoopEvent.fetchResolved 1 true, LoopEvent.execResolved 1]) ≤ 1 :=
  loop_cycles_serialized
    [LoopEvent.tick, LoopEvent.fetchResolved 0 false, LoopEvent.tick,
      LoopEvent.fetchResolved 1 true, LoopEvent.execResolved 1] (by decide)
